import Mathlib

/-!
Shallow embedding of the referral-code and points-accounting engine of the
Stable referral system (Python sources: services/referral_service.py,
routers/referrals.py, services/database.py).

The Google-Sheets worksheets are modelled as Lean lists of rows; each service
method becomes a pure function from the sheet state (plus explicit parameters
standing for the external collaborators: the address validator, the random
draws of the code generator, the balance oracle, and the current timestamp)
to a result together with the new sheet state.  Randomness is injected as
explicit entropy arguments; blockchain / RPC / HTTP concerns are abstracted
behind oracle parameters exactly where the Python code calls out to them.
-/

namespace StableReferral

/-- Case-lowering of a string, character by character (Python s.lower()). -/
def strLower (s : String) : String := String.mk (s.data.map Char.toLower)

/-- Case-raising of a string, character by character (Python s.upper()). -/
def strUpper (s : String) : String := String.mk (s.data.map Char.toUpper)

/- Reward and limit constants of ReferralService (referral_service.py lines 20-48). -/

def SIGNUP_BONUS : Nat := 1000

def REFEREE_BONUS : Nat := 1000

def MIN_SWAP_AMOUNT : Rat := 100

def BASE_ROLLS : Nat := 3

def BONUS_ROLLS : Nat := 3

def UNLOCK_THRESHOLD : Nat := 3

/-- Benefits attached to a reserved special code (SPECIAL_CODES values). -/
structure SpecialBenefit where
  min_swap : Rat
  bonus_points : Nat
  description : String
deriving Repr, DecidableEq

/-- The SPECIAL_CODES table of referral_service.py lines 27-43. -/
def SPECIAL_CODES : List (String × SpecialBenefit) :=
  [("PUNK", ⟨5, 500, "Solana Cypherpunk Hackathon code"⟩),
   ("LAUNCH", ⟨10, 250, "Launch week special"⟩),
   ("VIP", ⟨5, 1000, "VIP early access"⟩)]

/-- Python membership test code.upper() in SPECIAL_CODES, returning the entry. -/
def lookupSpecialCode (code : String) : Option SpecialBenefit :=
  (SPECIAL_CODES.find? (fun p => p.1 == strUpper code)).map (fun p => p.2)

/-- One row of the Codes worksheet (headers at referral_service.py lines 183-191). -/
structure CodeRow where
  address : String
  referral_code : String
  rarity : String
  rolls_used : Nat
  is_active : Bool
  created_at : String
deriving Repr, DecidableEq

/-- One row of the Referrals worksheet (headers at referral_service.py lines 172-182). -/
structure ReferralRow where
  referrer_address : String
  referral_code : String
  referred_address : String
  swap_amount_usdc : Rat
  swap_timestamp : String
  created_at : String
deriving Repr, DecidableEq

/-- One row of the DailyBalances worksheet (headers at referral_service.py lines 192-198). -/
structure SnapshotRow where
  date : String
  referred_address : String
  usdx_balance : Rat
  recorded_at : String
deriving Repr, DecidableEq

/-- The three worksheets backing ReferralService. -/
structure SheetsState where
  codes : List CodeRow
  referrals : List ReferralRow
  daily_balances : List SnapshotRow
deriving Repr, DecidableEq

/-- The external address validator (_validate_address wraps Web3 / solders,
which are collaborator libraries): a validity test plus a normal form. -/
structure AddressValidator where
  valid : String → Bool
  normalized : String → String

/-- Marker returned by get_address_by_code for reserved special codes. -/
def SPECIAL_CODE_SENTINEL : String := "SPECIAL_CODE"

/-- Placeholder referrer recorded for special codes (record_referral line 617). -/
def ZERO_ADDRESS : String := "0x0000000000000000000000000000000000000000"

/-- get_address_by_code (referral_service.py lines 523-549): special codes map
to the sentinel owner; otherwise a case-insensitive scan over ALL code rows,
active or not, returning the address of the first matching row. -/
def get_address_by_code (codes : List CodeRow) (code : String) : Option String :=
  if (lookupSpecialCode code).isSome then some SPECIAL_CODE_SENTINEL
  else
    match codes.find? (fun row => strUpper row.referral_code == strUpper code) with
    | some row => some row.address
    | none => none

/-- Benefits record returned by get_code_benefits. -/
structure CodeBenefits where
  min_swap : Rat
  bonus_points : Nat
  description : String
  is_special : Bool
  is_valid : Bool
deriving Repr, DecidableEq

/-- get_code_benefits (referral_service.py lines 551-585). -/
def get_code_benefits (codes : List CodeRow) (code : String) : CodeBenefits :=
  match lookupSpecialCode code with
  | some b => ⟨b.min_swap, b.bonus_points, b.description, true, true⟩
  | none =>
    match get_address_by_code codes code with
    | some referrer =>
        if referrer == SPECIAL_CODE_SENTINEL then
          ⟨MIN_SWAP_AMOUNT, 0, "Invalid code", false, false⟩
        else
          ⟨MIN_SWAP_AMOUNT, 0, "Standard referral code", false, true⟩
    | none => ⟨MIN_SWAP_AMOUNT, 0, "Invalid code", false, false⟩

/-- check_if_referred (referral_service.py lines 813-834): first Referrals row
whose referred_address matches case-insensitively. -/
def check_if_referred (s : SheetsState) (address : String) : Option (String × String) :=
  match s.referrals.find? (fun row => strLower row.referred_address == strLower address) with
  | some row => some (row.referrer_address, row.referral_code)
  | none => none

/-- _count_successful_referrals (referral_service.py lines 511-521). -/
def count_successful_referrals (s : SheetsState) (address : String) : Nat :=
  (s.referrals.filter (fun row => strLower row.referrer_address == strLower address)).length

/-- The recomputed roll cap: BASE_ROLLS, plus BONUS_ROLLS once the address has
at least UNLOCK_THRESHOLD successful referrals (referral_service.py lines
461-464 and 377-380). -/
def max_rolls (s : SheetsState) (address : String) : Nat :=
  if UNLOCK_THRESHOLD ≤ count_successful_referrals s address then BASE_ROLLS + BONUS_ROLLS
  else BASE_ROLLS

/-- Typed business-rule failures of the useCode pipeline (section 7 taxonomy). -/
inductive RefFailure where
  | invalidCode
  | invalidReferrer
  | invalidAddress
  | alreadyReferred
  | selfReferral
  | belowMinimum
  | unknownCode
deriving Repr, DecidableEq

/-- Success payload of record_referral (referral_service.py lines 668-674). -/
structure ReferralSuccess where
  referrer_bonus : Nat
  referee_bonus : Nat
  is_special : Bool
  description : String
deriving Repr, DecidableEq

/-- record_referral (referral_service.py lines 587-678).  The checks run in
source order: code validity, referrer normalization (special codes become the
zero address), referred-address validation, the already-referred scan, then
the code-specific minimum; only the success branch appends the one new
Referrals row. -/
def record_referral (V : AddressValidator) (s : SheetsState)
    (referrer_address referred_address : String) (swap_amount_usdc : Rat)
    (referral_code : String) (now : String) :
    Except RefFailure ReferralSuccess × SheetsState :=
  let code_benefits := get_code_benefits s.codes referral_code
  if !code_benefits.is_valid then (.error .invalidCode, s)
  else
    let min_amount := code_benefits.min_swap
    let referrerNorm : Option String :=
      if referrer_address == SPECIAL_CODE_SENTINEL then some ZERO_ADDRESS
      else if V.valid referrer_address then some (V.normalized referrer_address)
      else none
    match referrerNorm with
    | none => (.error .invalidReferrer, s)
    | some referrer =>
      if !V.valid referred_address then (.error .invalidAddress, s)
      else
        let referred := V.normalized referred_address
        if s.referrals.any (fun row => strLower row.referred_address == strLower referred) then
          (.error .alreadyReferred, s)
        else if swap_amount_usdc < min_amount then (.error .belowMinimum, s)
        else
          let referrer_bonus := if referrer == ZERO_ADDRESS then 0 else SIGNUP_BONUS
          let referee_bonus := REFEREE_BONUS + code_benefits.bonus_points
          (.ok ⟨referrer_bonus, referee_bonus, code_benefits.is_special, code_benefits.description⟩,
           { s with referrals := s.referrals ++
              [⟨referrer, referral_code, referred, swap_amount_usdc, now, now⟩] })

/-- Success payload of the POST /use handler (routers/referrals.py lines 359-371). -/
structure UseCodeSuccess where
  referrer_address : String
  referred_address : String
  referrer_bonus : Nat
  referee_bonus : Nat
  is_special : Bool
  description : String
deriving Repr, DecidableEq

/-- use_referral_code, the POST /use pipeline (routers/referrals.py lines
280-379): validate the referred address, resolve the code to an owner, reject
an already-referred address, reject self-referral, then delegate to
record_referral. -/
def use_referral_code (V : AddressValidator) (s : SheetsState)
    (referral_code referred_address : String) (swap_amount_usdc : Rat) (now : String) :
    Except RefFailure UseCodeSuccess × SheetsState :=
  if !V.valid referred_address then (.error .invalidAddress, s)
  else
    let referred_checksum := V.normalized referred_address
    match get_address_by_code s.codes referral_code with
    | none => (.error .unknownCode, s)
    | some referrer_address =>
      if (check_if_referred s referred_checksum).isSome then (.error .alreadyReferred, s)
      else if strLower referrer_address == strLower referred_checksum then
        (.error .selfReferral, s)
      else
        match record_referral V s referrer_address referred_checksum swap_amount_usdc
            referral_code now with
        | (.ok r, s2) =>
            (.ok ⟨referrer_address, referred_checksum, r.referrer_bonus, r.referee_bonus,
              r.is_special, r.description⟩, s2)
        | (.error e, s2) => (.error e, s2)

/-- Result payload of get_or_create_referral_code / regenerate_referral_code. -/
structure CodeInfo where
  code : String
  rarity : String
  rolls_used : Nat
  rolls_remaining : Nat
deriving Repr, DecidableEq

/-- get_or_create_referral_code (referral_service.py lines 349-424): lower the
address, return the first matching active row if any (no write); otherwise
append one new row with rolls_used = 1 and is_active = true whose code is the
freshly generated pair (freshCode, freshRarity) injected for the random
generator.  Nat subtraction gives the Python max(0, max_rolls - rolls_used). -/
def get_or_create_referral_code (s : SheetsState) (address : String)
    (freshCode freshRarity : String) (now : String) : CodeInfo × SheetsState :=
  let addr := strLower address
  match s.codes.find? (fun row => strLower row.address == addr && row.is_active) with
  | some row =>
      let rolls_used := row.rolls_used
      (⟨row.referral_code, row.rarity, rolls_used, max_rolls s addr - rolls_used⟩, s)
  | none =>
      (⟨freshCode, freshRarity, 1, BASE_ROLLS - 1⟩,
       { s with codes := s.codes ++ [⟨addr, freshCode, freshRarity, 1, true, now⟩] })

/-- Failure cases of regenerate_referral_code. -/
inductive RegenFailure where
  | noExistingCode
  | noRollsRemaining
deriving Repr, DecidableEq

/-- regenerate_referral_code (referral_service.py lines 426-509): collect all
rows of the address, fail if none; take the maximum rolls_used across them;
fail with noRollsRemaining when that maximum already reaches the recomputed
max_rolls, writing nothing; otherwise flip is_active off on the active rows of the address and append the fresh code with rolls_used one higher. -/
def regenerate_referral_code (s : SheetsState) (address : String)
    (freshCode freshRarity : String) (now : String) :
    Except RegenFailure CodeInfo × SheetsState :=
  let addr := strLower address
  let user_codes := s.codes.filter (fun row => strLower row.address == addr)
  if user_codes.isEmpty then (.error .noExistingCode, s)
  else
    let current_rolls_used := (user_codes.map (fun c => c.rolls_used)).foldl max 0
    let mr := max_rolls s addr
    if mr ≤ current_rolls_used then (.error .noRollsRemaining, s)
    else
      let deactivated := s.codes.map (fun row =>
        if strLower row.address == addr && row.is_active then
          { row with is_active := false }
        else row)
      let new_rolls_used := current_rolls_used + 1
      (.ok ⟨freshCode, freshRarity, new_rolls_used, mr - new_rolls_used⟩,
       { s with codes := deactivated ++ [⟨addr, freshCode, freshRarity, new_rolls_used, true, now⟩] })

/- Number-pattern generation (_generate_special_number, referral_service.py
lines 230-291).  The uniform draws of random.random() and random.randint()
are injected: the pattern-class draw as a rational in [0,1), random.choice
as an index, and the stream of candidate randint values as a list. -/

/-- SPECIAL_NUMBERS enumerated classes for 2-digit codes (lines 97-102). -/
def SPECIAL_NUMBERS_2 (pattern : String) : List Nat :=
  if pattern == "ultra_rare" then [69, 42, 88, 77, 99]
  else if pattern == "rare" then [11, 22, 33, 44, 55, 66]
  else if pattern == "uncommon" then
    [12, 23, 34, 45, 56, 67, 78, 89, 21, 32, 43, 54, 65, 76, 87, 98]
  else []

/-- SPECIAL_NUMBERS enumerated classes for 3-digit codes (lines 103-108). -/
def SPECIAL_NUMBERS_3 (pattern : String) : List Nat :=
  if pattern == "ultra_rare" then [420, 666, 888, 777, 999]
  else if pattern == "rare" then [111, 222, 333, 444, 555]
  else if pattern == "uncommon" then
    [123, 234, 345, 456, 567, 678, 789, 321, 432, 543, 654, 765, 876, 987]
  else []

/-- NUMBER_PATTERN_WEIGHTS[2] in declaration order (lines 117-122). -/
def NUMBER_PATTERN_WEIGHTS_2 : List (String × Rat) :=
  [("ultra_rare", 55/1000), ("rare", 67/1000), ("uncommon", 178/1000), ("common", 70/100)]

/-- NUMBER_PATTERN_WEIGHTS[3] in declaration order (lines 123-128). -/
def NUMBER_PATTERN_WEIGHTS_3 : List (String × Rat) :=
  [("ultra_rare", 55/10000), ("rare", 55/10000), ("uncommon", 155/10000), ("common", 9735/10000)]

/-- The cumulative-threshold selection loop shared by the weighted draws:
walk the (label, weight) pairs accumulating weight and return the first label
whose cumulative weight is at least the uniform draw. -/
def selectCumulative (rand : Rat) : List (String × Rat) → Rat → Option String
  | [], _ => none
  | (label, w) :: rest, acc =>
      if rand ≤ acc + w then some label else selectCumulative rand rest (acc + w)

/-- The union of the enumerated (non-common) sets for 2-digit numbers, as
built at referral_service.py lines 250-254. -/
def specialSet2 : List Nat :=
  SPECIAL_NUMBERS_2 "ultra_rare" ++ SPECIAL_NUMBERS_2 "rare" ++ SPECIAL_NUMBERS_2 "uncommon"

/-- The union of the enumerated (non-common) sets for 3-digit numbers, as
built at referral_service.py lines 275-279. -/
def specialSet3 : List Nat :=
  SPECIAL_NUMBERS_3 "ultra_rare" ++ SPECIAL_NUMBERS_3 "rare" ++ SPECIAL_NUMBERS_3 "uncommon"

/-- The while-True rejection loop of the common branch: return the first
candidate draw not belonging to the special set; none models the loop
spinning past the provided entropy. -/
def rejectionSample (special : List Nat) (draws : List Nat) : Option Nat :=
  draws.find? (fun n => !special.contains n)

/-- _generate_special_number for length 2 (lines 240-263): select a pattern
class by cumulative weights; the common class rejection-samples from the
injected randint stream, the other classes pick from their enumerated list
(random.choice injected as choiceIdx).  The post-loop fallback randint is
modelled as the head of the stream; it is unreachable for rand < 1 since the
weights sum to 1. -/
def generate_special_number_2 (rand : Rat) (choiceIdx : Nat) (draws : List Nat) : Option Nat :=
  match selectCumulative rand NUMBER_PATTERN_WEIGHTS_2 0 with
  | some pattern =>
      if pattern == "common" then rejectionSample specialSet2 draws
      else (SPECIAL_NUMBERS_2 pattern).get? (choiceIdx % (SPECIAL_NUMBERS_2 pattern).length)
  | none => draws.head?

/-- _generate_special_number for length 3 (lines 265-288), same shape. -/
def generate_special_number_3 (rand : Rat) (choiceIdx : Nat) (draws : List Nat) : Option Nat :=
  match selectCumulative rand NUMBER_PATTERN_WEIGHTS_3 0 with
  | some pattern =>
      if pattern == "common" then rejectionSample specialSet3 draws
      else (SPECIAL_NUMBERS_3 pattern).get? (choiceIdx % (SPECIAL_NUMBERS_3 pattern).length)
  | none => draws.head?

/- Leaderboard cache (services/database.py) and its cached read endpoint
(routers/referrals.py lines 664-717). -/

/-- One row of the leaderboard_cache table (database.py lines 14-34). -/
structure LeaderboardCacheEntry where
  address : String
  stable_points : Rat
  referral_points : Rat
  referee_bonus : Nat
  referrals : Nat
  total_points : Rat
deriving Repr, DecidableEq

/-- Descending order on cached total points (ORDER BY total_points DESC). -/
def pointsGE (x y : LeaderboardCacheEntry) : Prop := y.total_points ≤ x.total_points

instance : DecidableRel pointsGE :=
  fun x y => inferInstanceAs (Decidable (y.total_points ≤ x.total_points))

instance : IsTotal LeaderboardCacheEntry pointsGE :=
  ⟨fun x y => (le_total x.total_points y.total_points).elim Or.inr Or.inl⟩

instance : IsTrans LeaderboardCacheEntry pointsGE :=
  ⟨fun _ _ _ hab hbc => le_trans hbc hab⟩

/-- DatabaseService.get_leaderboard (database.py lines 131-213): the rows with
total_points > 0, ordered by total_points descending, truncated to limit. -/
def db_get_leaderboard (db : List LeaderboardCacheEntry) (limit : Nat) :
    List LeaderboardCacheEntry :=
  (List.insertionSort pointsGE (db.filter (fun e => 0 < e.total_points))).take limit

/-- DatabaseService.get_total_entries (database.py lines 284-321): the count
of rows with total_points > 0. -/
def db_get_total_entries (db : List LeaderboardCacheEntry) : Nat :=
  (db.filter (fun e => 0 < e.total_points)).length

/-- Response of GET /leaderboard-cached: either the empty-cache sentinel
(success false plus an instruction message) or the cached page. -/
inductive CachedLeaderboardResponse where
  | cacheEmpty (message : String)
  | ok (leaderboard : List LeaderboardCacheEntry) (total_entries : Nat)
deriving Repr, DecidableEq

/-- get_leaderboard_cached (routers/referrals.py lines 664-717). -/
def get_leaderboard_cached (db : List LeaderboardCacheEntry) (limit : Nat) :
    CachedLeaderboardResponse :=
  let leaderboard := db_get_leaderboard db limit
  let total_entries := db_get_total_entries db
  if total_entries == 0 then
    .cacheEmpty "Leaderboard cache is empty. Please run: python update_leaderboard_cache.py"
  else .ok leaderboard total_entries

/- Daily balance snapshot (snapshot_daily_balances, referral_service.py lines
907-1071).  The whole per-address balance computation (EVM wallet + staked
balances, or the Solana ATA balance) is abstracted as the oracle
queryBalance: none stands for an invalid address or a per-address exception
(the continue paths), and a returned value of 0 stands for the branches that
zero the balance after a failed query. -/

/-- The batch of rows appended for one snapshot run: one row per distinct
referred address whose queried balance is strictly positive (the
`if usdx_balance > 0` filter at line 1044). -/
def snapshot_new_rows (s : SheetsState) (today now : String)
    (queryBalance : String → Option Rat) : List SnapshotRow :=
  ((s.referrals.map (fun r => r.referred_address)).dedup).filterMap
    (fun address => match queryBalance address with
      | some b => if 0 < b then some ⟨today, address, b, now⟩ else none
      | none => none)

/-- snapshot_daily_balances: skip (idempotent-by-date guard) when a row for
today already exists, else append the batch. -/
def snapshot_daily_balances (s : SheetsState) (today now : String)
    (queryBalance : String → Option Rat) : Bool × SheetsState :=
  if s.daily_balances.any (fun row => row.date == today) then (false, s)
  else (true, { s with daily_balances :=
    s.daily_balances ++ snapshot_new_rows s today now queryBalance })

/-! Helper lemmas. -/

theorem charToLower_idem (c : Char) : Char.toLower (Char.toLower c) = Char.toLower c := by
  simp only [Char.toLower]
  by_cases h : c.toNat ≥ 65 ∧ c.toNat ≤ 90
  · rw [if_pos h]
    have hvalid : Nat.isValidChar (c.toNat + 32) := by
      left
      omega
    have h2 : (Char.ofNat (c.toNat + 32)).toNat = c.toNat + 32 := by
      rw [Char.ofNat, dif_pos hvalid]
      rfl
    rw [if_neg]
    rw [h2]
    omega
  · rw [if_neg h, if_neg h]

theorem strLower_idem (s : String) : strLower (strLower s) = strLower s := by
  simp [strLower, List.map_map, Function.comp_def, charToLower_idem]

/-- Every run of record_referral either reports a typed failure and leaves the
sheets untouched, or appends exactly one Referrals row. -/
theorem record_referral_cases (V : AddressValidator) (s : SheetsState)
    (ra rda : String) (amt : Rat) (code now : String) :
    (∃ e, record_referral V s ra rda amt code now = (.error e, s)) ∨
    (∃ r ev, record_referral V s ra rda amt code now =
      (.ok r, { s with referrals := s.referrals ++ [ev] })) := by
  simp only [record_referral]
  repeat' split
  all_goals first
    | exact Or.inl ⟨_, rfl⟩
    | exact Or.inr ⟨_, _, rfl⟩

/-- Every run of the POST /use pipeline either reports a typed failure and
leaves the sheets untouched, or appends exactly one Referrals row. -/
theorem use_referral_code_cases (V : AddressValidator) (s : SheetsState)
    (code rda : String) (amt : Rat) (now : String) :
    (∃ e, use_referral_code V s code rda amt now = (.error e, s)) ∨
    (∃ r ev, use_referral_code V s code rda amt now =
      (.ok r, { s with referrals := s.referrals ++ [ev] })) := by
  simp only [use_referral_code]
  repeat' split
  all_goals try exact Or.inl ⟨_, rfl⟩
  all_goals rename_i hrec
  all_goals rcases record_referral_cases V s _ (V.normalized rda) amt code now
    with ⟨e, he⟩ | ⟨r, ev, hr⟩
  · rw [he] at hrec; cases hrec
  · rw [hr] at hrec
    injection hrec with h1 h2
    subst h2; cases h1
    exact Or.inr ⟨_, ev, rfl⟩
  · rw [he] at hrec
    injection hrec with h1 h2
    subst h2; cases h1
    exact Or.inl ⟨_, rfl⟩
  · rw [hr] at hrec; cases hrec

/-! Claim theorems. -/

/-- C2: every useCode call is atomic — a typed failure performs no write at
all (the post-state is the pre-state), and a success appends exactly one
ReferralEvent row, touching neither the Codes nor the DailyBalances sheet. -/
theorem useCode_atomic (V : AddressValidator) (s : SheetsState)
    (code rda : String) (amt : Rat) (now : String)
    (res : Except RefFailure UseCodeSuccess) (s2 : SheetsState)
    (h : use_referral_code V s code rda amt now = (res, s2)) :
    ((∃ e, res = .error e) → s2 = s) ∧
    (∀ r, res = .ok r → s2.codes = s.codes ∧ s2.daily_balances = s.daily_balances ∧
      ∃ ev, s2.referrals = s.referrals ++ [ev]) := by
  rcases use_referral_code_cases V s code rda amt now with ⟨e, he⟩ | ⟨r, ev, hr⟩
  · rw [he] at h
    injection h with h1 h2
    subst h1; subst h2
    constructor
    · intro _; rfl
    · intro r hr; cases hr
  · rw [hr] at h
    injection h with h1 h2
    subst h1; subst h2
    constructor
    · rintro ⟨e, he⟩; cases he
    · intro r2 _
      exact ⟨rfl, rfl, ev, rfl⟩

/-- C5: getOrCreate is idempotent per address — a second call on the state the
first call produced returns the identical code and changes nothing; when an
active row exists the call returns the code of that row without writing, and
otherwise it appends exactly one row with rolls_used = 1 and is_active = true
carrying the freshly generated code. -/
theorem getOrCreate_idempotent (s : SheetsState) (a f1 r1 f2 r2 n1 n2 : String) :
    ((get_or_create_referral_code (get_or_create_referral_code s a f1 r1 n1).2 a f2 r2 n2).1.code
      = (get_or_create_referral_code s a f1 r1 n1).1.code) ∧
    ((get_or_create_referral_code (get_or_create_referral_code s a f1 r1 n1).2 a f2 r2 n2).2
      = (get_or_create_referral_code s a f1 r1 n1).2) ∧
    (∀ row, s.codes.find? (fun row => strLower row.address == strLower a && row.is_active)
        = some row →
       (get_or_create_referral_code s a f1 r1 n1).1.code = row.referral_code ∧
       (get_or_create_referral_code s a f1 r1 n1).2 = s) ∧
    (s.codes.find? (fun row => strLower row.address == strLower a && row.is_active) = none →
       (get_or_create_referral_code s a f1 r1 n1).2.codes
         = s.codes ++ [⟨strLower a, f1, r1, 1, true, n1⟩] ∧
       (get_or_create_referral_code s a f1 r1 n1).1.code = f1) := by
  refine ⟨?_, ?_, ?_, ?_⟩
  case _ =>
    cases hfind : s.codes.find? (fun row => strLower row.address == strLower a && row.is_active) with
    | some row => simp only [get_or_create_referral_code, hfind]
    | none =>
        have hfind2 : ((s.codes ++ [(⟨strLower a, f1, r1, 1, true, n1⟩ : CodeRow)]).find?
            (fun row => strLower row.address == strLower a && row.is_active))
            = some ⟨strLower a, f1, r1, 1, true, n1⟩ := by
          rw [List.find?_append, hfind]
          simp only [Option.none_or]
          rw [List.find?_cons_of_pos]
          simp [strLower_idem]
        simp only [get_or_create_referral_code, hfind, hfind2]
  case _ =>
    cases hfind : s.codes.find? (fun row => strLower row.address == strLower a && row.is_active) with
    | some row => simp only [get_or_create_referral_code, hfind]
    | none =>
        have hfind2 : ((s.codes ++ [(⟨strLower a, f1, r1, 1, true, n1⟩ : CodeRow)]).find?
            (fun row => strLower row.address == strLower a && row.is_active))
            = some ⟨strLower a, f1, r1, 1, true, n1⟩ := by
          rw [List.find?_append, hfind]
          simp only [Option.none_or]
          rw [List.find?_cons_of_pos]
          simp [strLower_idem]
        simp only [get_or_create_referral_code, hfind, hfind2]
  case _ =>
    intro row hfind
    simp only [get_or_create_referral_code, hfind]
    exact ⟨trivial, trivial⟩
  case _ =>
    intro hfind
    simp only [get_or_create_referral_code, hfind]
    exact ⟨trivial, trivial⟩

/-- C4: with an existing code, regenerate fails with NoRollsRemaining and
writes nothing whenever the maximum rolls_used across the address rows has
reached max_rolls (3, or 6 once at least 3 referral events name the address
as referrer); on success the stored rolls_used is that maximum plus one and
never exceeds max_rolls. -/
theorem regenerate_roll_cap (s : SheetsState) (address fresh rar now : String)
    (hne : ((s.codes.filter (fun row => strLower row.address == strLower address)).isEmpty)
      = false) :
    (max_rolls s (strLower address) ≤
        ((s.codes.filter (fun row => strLower row.address == strLower address)).map
          (fun c => c.rolls_used)).foldl max 0 →
      regenerate_referral_code s address fresh rar now = (.error .noRollsRemaining, s)) ∧
    (((s.codes.filter (fun row => strLower row.address == strLower address)).map
          (fun c => c.rolls_used)).foldl max 0 < max_rolls s (strLower address) →
      ∃ info s2, regenerate_referral_code s address fresh rar now = (.ok info, s2) ∧
        info.rolls_used =
          ((s.codes.filter (fun row => strLower row.address == strLower address)).map
            (fun c => c.rolls_used)).foldl max 0 + 1 ∧
        info.rolls_used ≤ max_rolls s (strLower address) ∧
        s2.codes = (s.codes.map (fun row =>
            if strLower row.address == strLower address && row.is_active then
              { row with is_active := false } else row))
          ++ [⟨strLower address, fresh, rar, info.rolls_used, true, now⟩]) := by
  have houter : ¬ (((s.codes.filter (fun row => strLower row.address == strLower address)).isEmpty)
      = true) := by
    rw [hne]
    simp
  constructor
  · intro hcap
    simp only [regenerate_referral_code]
    rw [if_neg houter, if_pos hcap]
  · intro hcap
    have heval : regenerate_referral_code s address fresh rar now =
        (.ok ⟨fresh, rar,
          ((s.codes.filter (fun row => strLower row.address == strLower address)).map
            (fun c => c.rolls_used)).foldl max 0 + 1,
          max_rolls s (strLower address) -
            (((s.codes.filter (fun row => strLower row.address == strLower address)).map
              (fun c => c.rolls_used)).foldl max 0 + 1)⟩,
         { s with codes := (s.codes.map (fun row =>
            if strLower row.address == strLower address && row.is_active then
              { row with is_active := false } else row))
          ++ [⟨strLower address, fresh, rar,
            ((s.codes.filter (fun row => strLower row.address == strLower address)).map
              (fun c => c.rolls_used)).foldl max 0 + 1, true, now⟩] }) := by
      simp only [regenerate_referral_code]
      rw [if_neg houter, if_neg (Nat.not_le.mpr hcap)]
    exact ⟨_, _, heval, rfl, hcap, rfl⟩

def countReferralEvents (s : SheetsState) (address : String) : Nat :=
  (s.referrals.filter (fun row => strLower row.referred_address == strLower address)).length

/-- record_referral never reports selfReferral or unknownCode: those two
failures belong to the router stage of the pipeline. -/
theorem record_referral_errors (V : AddressValidator) (s : SheetsState)
    (ra rda : String) (amt : Rat) (code now : String) :
    (record_referral V s ra rda amt code now).1 ≠ .error .selfReferral ∧
    (record_referral V s ra rda amt code now).1 ≠ .error .unknownCode := by
  simp only [record_referral]
  repeat' split
  all_goals simp

/-- C1: once a referred address holds its one ReferralEvent, a second useCode
call naming the same referred address with any resolvable code fails with
AlreadyReferred, appends nothing, and the event count for the address stays
exactly 1. -/
theorem useCode_second_already_referred (V : AddressValidator) (s : SheetsState)
    (code addr : String) (amt : Rat) (now : String)
    (hvalid : V.valid addr = true)
    (hknown : (get_address_by_code s.codes code).isSome = true)
    (hcount : countReferralEvents s (V.normalized addr) = 1) :
    use_referral_code V s code addr amt now = (.error .alreadyReferred, s) ∧
    countReferralEvents (use_referral_code V s code addr amt now).2 (V.normalized addr) = 1 := by
  obtain ⟨owner, howner⟩ := Option.isSome_iff_exists.mp hknown
  have hfound : (check_if_referred s (V.normalized addr)).isSome = true := by
    unfold check_if_referred
    cases hf : s.referrals.find?
        (fun row => strLower row.referred_address == strLower (V.normalized addr)) with
    | some row => rfl
    | none =>
        exfalso
        have hfe : s.referrals.filter
            (fun row => strLower row.referred_address == strLower (V.normalized addr)) = [] := by
          apply List.filter_eq_nil_iff.mpr
          intro row hm
          have := List.find?_eq_none.mp hf row hm
          simpa using this
        rw [countReferralEvents, hfe] at hcount
        simp at hcount
  have hmain : use_referral_code V s code addr amt now = (.error .alreadyReferred, s) := by
    simp [use_referral_code, hvalid, howner, hfound]
  refine ⟨hmain, ?_⟩
  rw [hmain]
  exact hcount

/-- C3: when the code resolves to an owner equal (case-insensitively) to the
normalized referred address, useCode fails with SelfReferral and records no
event; and for a reserved special code, whose owner is the sentinel, the
SelfReferral failure can never be produced as long as the normalized address
does not collide with the sentinel string. -/
theorem useCode_self_referral (V : AddressValidator) (s : SheetsState)
    (code addr owner : String) (amt : Rat) (now : String)
    (hvalid : V.valid addr = true)
    (howner : get_address_by_code s.codes code = some owner)
    (hnref : check_if_referred s (V.normalized addr) = none)
    (hself : strLower owner = strLower (V.normalized addr)) :
    use_referral_code V s code addr amt now = (.error .selfReferral, s) ∧
    (∀ (code2 addr2 : String) (amt2 : Rat) (now2 : String),
      (lookupSpecialCode code2).isSome = true → V.valid addr2 = true →
      strLower (V.normalized addr2) ≠ strLower SPECIAL_CODE_SENTINEL →
      (use_referral_code V s code2 addr2 amt2 now2).1 ≠ .error .selfReferral) := by
  constructor
  · simp [use_referral_code, hvalid, howner, hnref, hself]
  · intro code2 addr2 amt2 now2 hsp hvalid2 hne
    have howner2 : get_address_by_code s.codes code2 = some SPECIAL_CODE_SENTINEL := by
      rw [get_address_by_code, if_pos]
      rw [hsp]
    have hbeq : (strLower SPECIAL_CODE_SENTINEL == strLower (V.normalized addr2)) = false := by
      rw [beq_eq_false_iff_ne]
      exact fun h => hne h.symm
    simp only [use_referral_code, hvalid2, Bool.not_true, Bool.false_eq_true, if_false, howner2,
      hbeq]
    cases hsome : (check_if_referred s (V.normalized addr2)).isSome with
    | true =>
        simp
    | false =>
        simp only [Bool.false_eq_true, if_false]
        have hne2 := (record_referral_errors V s SPECIAL_CODE_SENTINEL
          (V.normalized addr2) amt2 code2 now2).1
        rcases hrec : record_referral V s SPECIAL_CODE_SENTINEL
          (V.normalized addr2) amt2 code2 now2 with ⟨res, s3⟩
        cases res with
        | ok r => simp
        | error e =>
            show ((Except.error e : Except RefFailure UseCodeSuccess), s3).1 ≠
              Except.error RefFailure.selfReferral
            intro hcontra
            injection hcontra with h
            exact hne2 (by rw [hrec, h])

/-- C6: resolveOwner is a case-insensitive lookup over ALL ledger rows, active
or deactivated: any code a row ever recorded for an address resolves to that
address (given the ledger keeps codes unique, as generation enforces);
reserved special codes resolve to the sentinel owner whatever the ledger
holds; and a state whose ledger holds the code can never make useCode fail
with UnknownCode. -/
theorem resolveOwner_all_rows (codes : List CodeRow) (c a : String)
    (hns : (lookupSpecialCode c).isSome = false)
    (hex : ∃ row ∈ codes, strUpper row.referral_code = strUpper c ∧ row.address = a)
    (hall : ∀ row ∈ codes, strUpper row.referral_code = strUpper c → row.address = a) :
    get_address_by_code codes c = some a ∧
    (∀ (codes2 : List CodeRow) (sc : String), (lookupSpecialCode sc).isSome = true →
      get_address_by_code codes2 sc = some SPECIAL_CODE_SENTINEL) ∧
    (∀ (s : SheetsState) (V : AddressValidator) (addr : String) (amt : Rat) (now : String),
      s.codes = codes →
      (use_referral_code V s c addr amt now).1 ≠ .error .unknownCode) := by
  have hres : get_address_by_code codes c = some a := by
    rw [get_address_by_code, if_neg (by rw [hns]; simp)]
    have hsome : (codes.find? (fun row => strUpper row.referral_code == strUpper c)).isSome
        = true := by
      rw [List.find?_isSome]
      obtain ⟨row, hm, hcode, haddr⟩ := hex
      exact ⟨row, hm, by simp [hcode]⟩
    obtain ⟨row, hrow⟩ := Option.isSome_iff_exists.mp hsome
    have hmem := List.mem_of_find?_eq_some hrow
    have hpred := List.find?_some hrow
    have haddr : row.address = a := hall row hmem (by simpa using hpred)
    rw [hrow]
    show some row.address = some a
    rw [haddr]
  refine ⟨hres, ?_, ?_⟩
  · intro codes2 sc hsp
    rw [get_address_by_code, if_pos]
    rw [hsp]
  · intro s V addr amt now hsc
    simp only [use_referral_code]
    split
    · simp
    · rw [hsc, hres]
      cases hsome : (check_if_referred s (V.normalized addr)).isSome with
      | true => simp
      | false =>
          simp only [Bool.false_eq_true, if_false]
          split
          · simp
          · have hne2 := (record_referral_errors V s a (V.normalized addr) amt c now).2
            rcases hrec : record_referral V s a (V.normalized addr) amt c now with ⟨res, s3⟩
            rw [hrec] at hne2
            cases res with
            | ok r => simp
            | error e =>
                show ((Except.error e : Except RefFailure UseCodeSuccess), s3).1 ≠
                  Except.error RefFailure.unknownCode
                intro hcontra
                injection hcontra with h
                subst h
                exact hne2 rfl

/-- If no Referrals row names the address as referred, the any-scan of
record_referral comes back false. -/
theorem check_if_referred_none_any (s : SheetsState) (a : String)
    (h : check_if_referred s a = none) :
    s.referrals.any (fun row => strLower row.referred_address == strLower a) = false := by
  unfold check_if_referred at h
  cases hf : s.referrals.find? (fun row => strLower row.referred_address == strLower a) with
  | some row => rw [hf] at h; cases h
  | none =>
      rw [List.any_eq_false]
      intro row hm
      simpa using List.find?_eq_none.mp hf row hm

/-- C7 -/
theorem min_swap_boundary (V : AddressValidator) (s : SheetsState) (addr now : String)
    (hvalid : V.valid addr = true)
    (hvalidn : V.valid (V.normalized addr) = true)
    (hidem : V.normalized (V.normalized addr) = V.normalized addr)
    (hnref : check_if_referred s (V.normalized addr) = none)
    (hnsent : strLower (V.normalized addr) ≠ strLower SPECIAL_CODE_SENTINEL) :
    get_code_benefits s.codes "PUNK"
      = ⟨5, 500, "Solana Cypherpunk Hackathon code", true, true⟩ ∧
    (∀ code, lookupSpecialCode code = none →
      (get_code_benefits s.codes code).min_swap = MIN_SWAP_AMOUNT ∧
      (get_code_benefits s.codes code).bonus_points = 0) ∧
    use_referral_code V s "PUNK" addr (499/100) now = (.error .belowMinimum, s) ∧
    use_referral_code V s "PUNK" addr 5 now =
      (.ok ⟨SPECIAL_CODE_SENTINEL, V.normalized addr, 0, 1500, true,
        "Solana Cypherpunk Hackathon code"⟩,
       { s with referrals := s.referrals ++
          [⟨ZERO_ADDRESS, "PUNK", V.normalized addr, 5, now, now⟩] }) := by
  have hbenef : get_code_benefits s.codes "PUNK"
      = ⟨5, 500, "Solana Cypherpunk Hackathon code", true, true⟩ := rfl
  have howner : get_address_by_code s.codes "PUNK" = some SPECIAL_CODE_SENTINEL := by
    rw [get_address_by_code, if_pos]
    decide
  have hany : s.referrals.any
      (fun row => strLower row.referred_address == strLower (V.normalized addr)) = false :=
    check_if_referred_none_any s (V.normalized addr) hnref
  have hbeq : (strLower SPECIAL_CODE_SENTINEL == strLower (V.normalized addr)) = false := by
    rw [beq_eq_false_iff_ne]
    exact fun h => hnsent h.symm
  refine ⟨hbenef, ?_, ?_, ?_⟩
  · intro code hnone
    simp only [get_code_benefits, hnone]
    cases hres : get_address_by_code s.codes code with
    | none => exact ⟨rfl, rfl⟩
    | some r =>
        by_cases h : (r == SPECIAL_CODE_SENTINEL) = true
        · simp [h]
        · simp [h]
  · have hrec : record_referral V s SPECIAL_CODE_SENTINEL (V.normalized addr) (499/100)
        "PUNK" now = (.error .belowMinimum, s) := by
      simp only [record_referral, hbenef, hvalidn, hidem, hany, REFEREE_BONUS]
      norm_num
    simp [use_referral_code, hvalid, howner, hnref, hbeq, hrec]
  · have hrec : record_referral V s SPECIAL_CODE_SENTINEL (V.normalized addr) 5
        "PUNK" now =
        (.ok ⟨0, 1500, true, "Solana Cypherpunk Hackathon code"⟩,
         { s with referrals := s.referrals ++
            [⟨ZERO_ADDRESS, "PUNK", V.normalized addr, 5, now, now⟩] }) := by
      simp only [record_referral, hbenef, hvalidn, hidem, hany, REFEREE_BONUS]
      norm_num
    simp [use_referral_code, hvalid, howner, hnref, hbeq, hrec]

/-- C8: in the common pattern class for 2- and 3-digit numbers the generator
rejection-samples: the first candidate of the uniform stream not in an
enumerated special class is returned, so the result lies in the full range of
its digit-length and never belongs to the ultra_rare, rare or uncommon sets;
the rejection loop retries exactly on members of those sets. -/
theorem common_rejection_sampling :
    (∀ (rand : Rat) (idx : Nat) (draws : List Nat) (n : Nat),
      selectCumulative rand NUMBER_PATTERN_WEIGHTS_2 0 = some "common" →
      (∀ d ∈ draws, 10 ≤ d ∧ d ≤ 99) →
      generate_special_number_2 rand idx draws = some n →
      n ∉ specialSet2 ∧ 10 ≤ n ∧ n ≤ 99 ∧
        rejectionSample specialSet2 draws = some n) ∧
    (∀ (rand : Rat) (idx : Nat) (draws : List Nat) (n : Nat),
      selectCumulative rand NUMBER_PATTERN_WEIGHTS_3 0 = some "common" →
      (∀ d ∈ draws, 100 ≤ d ∧ d ≤ 999) →
      generate_special_number_3 rand idx draws = some n →
      n ∉ specialSet3 ∧ 100 ≤ n ∧ n ≤ 999 ∧
        rejectionSample specialSet3 draws = some n) ∧
    (∀ (special : List Nat) (d : Nat) (ds : List Nat),
      rejectionSample special (d :: ds) =
        if special.contains d then rejectionSample special ds else some d) := by
  refine ⟨?_, ?_, ?_⟩
  · intro rand idx draws n hsel hrange hgen
    rw [generate_special_number_2, hsel] at hgen
    simp only [beq_self_eq_true, if_true] at hgen
    have hmem := List.mem_of_find?_eq_some hgen
    have hpred := List.find?_some hgen
    have hnotin : n ∉ specialSet2 := by
      intro hn
      rw [Bool.not_eq_true'] at hpred
      exact absurd hn (by simpa using hpred)
    exact ⟨hnotin, (hrange n hmem).1, (hrange n hmem).2, hgen⟩
  · intro rand idx draws n hsel hrange hgen
    rw [generate_special_number_3, hsel] at hgen
    simp only [beq_self_eq_true, if_true] at hgen
    have hmem := List.mem_of_find?_eq_some hgen
    have hpred := List.find?_some hgen
    have hnotin : n ∉ specialSet3 := by
      intro hn
      rw [Bool.not_eq_true'] at hpred
      exact absurd hn (by simpa using hpred)
    exact ⟨hnotin, (hrange n hmem).1, (hrange n hmem).2, hgen⟩
  · intro special d ds
    cases h : special.contains d with
    | true =>
        rw [if_pos rfl]
        rw [rejectionSample, rejectionSample, List.find?_cons_of_neg]
        rw [h]
        decide
    | false =>
        rw [if_neg Bool.false_ne_true]
        rw [rejectionSample, List.find?_cons_of_pos]
        rw [h]
        decide

/-- C9: the cached leaderboard read returns the rows with positive
total_points sorted descending and truncated to the limit, and an empty cache
produces the sentinel constructor (success false plus a refresh instruction),
which can never coincide with a successful response. -/
theorem leaderboard_cached_spec (db : List LeaderboardCacheEntry) (limit : Nat) :
    (db_get_total_entries db = 0 →
      get_leaderboard_cached db limit =
        .cacheEmpty "Leaderboard cache is empty. Please run: python update_leaderboard_cache.py") ∧
    (0 < db_get_total_entries db →
      get_leaderboard_cached db limit
        = .ok (db_get_leaderboard db limit) (db_get_total_entries db)) ∧
    (∀ (msg : String) (lb : List LeaderboardCacheEntry) (t : Nat),
      CachedLeaderboardResponse.cacheEmpty msg ≠ .ok lb t) ∧
    List.Sorted pointsGE (db_get_leaderboard db limit) ∧
    (∀ e ∈ db_get_leaderboard db limit, 0 < e.total_points) := by
  refine ⟨?_, ?_, ?_, ?_, ?_⟩
  · intro h
    simp [get_leaderboard_cached, h]
  · intro h
    simp only [get_leaderboard_cached]
    rw [if_neg]
    simp only [beq_iff_eq]
    omega
  · intro msg lb t hc
    cases hc
  · have hs := List.sorted_insertionSort pointsGE (db.filter (fun e => 0 < e.total_points))
    exact List.Pairwise.sublist (List.take_sublist _ _) hs
  · intro e he
    have h1 : e ∈ List.insertionSort pointsGE (db.filter (fun x => 0 < x.total_points)) :=
      List.mem_of_mem_take he
    have h2 : e ∈ db.filter (fun x => 0 < x.total_points) :=
      ((List.perm_insertionSort pointsGE _).mem_iff).mp h1
    have h3 := List.of_mem_filter h2
    simpa using h3

/-- C10: a daily-snapshot run (on a day not yet snapshotted) appends exactly
the computed batch; every appended row has a strictly positive balance and
carries the snapshot date, and an address whose balance query fails or
returns a non-positive value contributes no row. -/
theorem snapshot_positive (s : SheetsState) (today now : String)
    (q : String → Option Rat)
    (hno : (s.daily_balances.any (fun row => row.date == today)) = false) :
    (snapshot_daily_balances s today now q).2.daily_balances =
      s.daily_balances ++ snapshot_new_rows s today now q ∧
    (∀ row ∈ snapshot_new_rows s today now q, 0 < row.usdx_balance ∧ row.date = today) ∧
    (∀ a, (q a = none ∨ ∃ b, q a = some b ∧ b ≤ 0) →
      ∀ row ∈ snapshot_new_rows s today now q, row.referred_address ≠ a) := by
  refine ⟨?_, ?_, ?_⟩
  · simp [snapshot_daily_balances, hno]
  · intro row hrow
    rw [snapshot_new_rows] at hrow
    obtain ⟨a, ha, heq⟩ := List.mem_filterMap.mp hrow
    cases hq : q a with
    | none =>
        simp only [hq] at heq
        cases heq
    | some b =>
        simp only [hq] at heq
        by_cases hb : (0:Rat) < b
        · rw [if_pos hb] at heq
          injection heq with h
          rw [← h]
          exact ⟨hb, rfl⟩
        · rw [if_neg hb] at heq
          cases heq
  · intro a ha row hrow
    rw [snapshot_new_rows] at hrow
    obtain ⟨a2, ha2, heq⟩ := List.mem_filterMap.mp hrow
    cases hq : q a2 with
    | none =>
        simp only [hq] at heq
        cases heq
    | some b =>
        simp only [hq] at heq
        by_cases hb : (0:Rat) < b
        · rw [if_pos hb] at heq
          injection heq with h
          rw [← h]
          intro hcontra
          have haa : a2 = a := hcontra
          rw [haa] at hq
          rcases ha with hnone | ⟨b2, hsome, hle⟩
          · rw [hq] at hnone; cases hnone
          · rw [hq] at hsome
            injection hsome with hbb
            rw [← hbb] at hle
            exact absurd hb (not_lt.mpr hle)
        · rw [if_neg hb] at heq
          cases heq

/-! Concrete witnesses.  testValidator stands for the external address
validator on a fixed whitelist with identity normalization. -/

def testValidator : AddressValidator :=
  ⟨fun a => a == "0xaaa" || a == "0xbbb" || a == "0xccc", fun a => a⟩

def wEmpty : SheetsState := ⟨[], [], []⟩

def wReferred : SheetsState :=
  ⟨[⟨"0xbbb", "GOLD-WHALE-42", "MYTHIC", 1, true, "t0"⟩],
   [⟨"0xbbb", "GOLD-WHALE-42", "0xaaa", 150, "t1", "t1"⟩], []⟩

def wOwn : SheetsState :=
  ⟨[⟨"0xaaa", "SILVER-WAVE-07", "COMMON", 1, true, "t0"⟩], [], []⟩

def wRolled : SheetsState :=
  ⟨[⟨"0xccc", "GRAY-WIND-12", "COMMON", 3, true, "t0"⟩], [], []⟩

def wOldCodes : List CodeRow := [⟨"0xbbb", "SILVER-WAVE-07", "COMMON", 2, false, "t0"⟩]

def wDb : List LeaderboardCacheEntry :=
  [⟨"0xa", 0, 0, 0, 0, 10⟩, ⟨"0xb", 0, 0, 0, 0, 30⟩, ⟨"0xc", 0, 0, 0, 0, 20⟩]

def wSnap : SheetsState :=
  ⟨[], [⟨"0xbbb", "GOLD-WHALE-42", "0xaaa", 150, "t1", "t1"⟩], []⟩

def wOracle : String → Option Rat := fun a => if a == "0xaaa" then some 5 else none

theorem useCode_second_already_referred_witness :
    use_referral_code testValidator wReferred "GOLD-WHALE-42" "0xaaa" 200 "t2"
      = (.error .alreadyReferred, wReferred) ∧
    countReferralEvents
      (use_referral_code testValidator wReferred "GOLD-WHALE-42" "0xaaa" 200 "t2").2 "0xaaa" = 1 :=
  useCode_second_already_referred testValidator wReferred "GOLD-WHALE-42" "0xaaa" 200 "t2"
    (by decide) (by decide) (by decide)

theorem useCode_atomic_witness :
    (use_referral_code testValidator wReferred "NOPE" "0xaaa" 200 "t2").2 = wReferred :=
  (useCode_atomic testValidator wReferred "NOPE" "0xaaa" 200 "t2"
    (.error .unknownCode) wReferred rfl).1 ⟨.unknownCode, rfl⟩

theorem useCode_self_referral_witness :
    use_referral_code testValidator wOwn "SILVER-WAVE-07" "0xaaa" 200 "t1"
      = (.error .selfReferral, wOwn) :=
  (useCode_self_referral testValidator wOwn "SILVER-WAVE-07" "0xaaa" "0xaaa" 200 "t1"
    (by decide) (by decide) (by decide) (by decide)).1

theorem regenerate_roll_cap_witness :
    regenerate_referral_code wRolled "0xccc" "ASH-SKY-33" "COMMON" "t1"
      = (.error .noRollsRemaining, wRolled) :=
  (regenerate_roll_cap wRolled "0xccc" "ASH-SKY-33" "COMMON" "t1" (by decide)).1 (by decide)

theorem getOrCreate_idempotent_witness :
    (get_or_create_referral_code
        (get_or_create_referral_code wEmpty "0xAAA" "IRON-WAVE-07" "COMMON" "t1").2
        "0xAAA" "GRAY-WIND-12" "COMMON" "t2").1.code
      = (get_or_create_referral_code wEmpty "0xAAA" "IRON-WAVE-07" "COMMON" "t1").1.code :=
  (getOrCreate_idempotent wEmpty "0xAAA" "IRON-WAVE-07" "COMMON" "GRAY-WIND-12" "COMMON"
    "t1" "t2").1

theorem resolveOwner_all_rows_witness :
    get_address_by_code wOldCodes "silver-wave-07" = some "0xbbb" :=
  (resolveOwner_all_rows wOldCodes "silver-wave-07" "0xbbb" (by decide) (by decide) (by decide)).1

theorem min_swap_boundary_witness :
    use_referral_code testValidator wEmpty "PUNK" "0xaaa" (499/100) "t1"
      = (.error .belowMinimum, wEmpty) :=
  (min_swap_boundary testValidator wEmpty "0xaaa" "t1"
    (by decide) (by decide) rfl rfl (by decide)).2.2.1

theorem common_rejection_sampling_witness :
    (57 ∉ specialSet2 ∧ 10 ≤ 57 ∧ 57 ≤ 99 ∧
      rejectionSample specialSet2 [42, 57] = some 57) :=
  common_rejection_sampling.1 1 0 [42, 57] 57
    (by norm_num [selectCumulative, NUMBER_PATTERN_WEIGHTS_2])
    (by decide)
    (by rw [generate_special_number_2]
        rw [show selectCumulative 1 NUMBER_PATTERN_WEIGHTS_2 0 = some "common" from
          by norm_num [selectCumulative, NUMBER_PATTERN_WEIGHTS_2]]
        decide)

theorem leaderboard_cached_spec_witness :
    get_leaderboard_cached wDb 2 = .ok (db_get_leaderboard wDb 2) (db_get_total_entries wDb) :=
  (leaderboard_cached_spec wDb 2).2.1 (by decide)

theorem snapshot_positive_witness :
    (snapshot_daily_balances wSnap "2026-10-12" "t2" wOracle).2.daily_balances
      = wSnap.daily_balances ++ snapshot_new_rows wSnap "2026-10-12" "t2" wOracle :=
  (snapshot_positive wSnap "2026-10-12" "t2" wOracle (by decide)).1

end StableReferral
